import Mathlib

/-!
Shallow embedding of the coconut-server backend (src/index.js, first file
revision) and proofs about its order-lifecycle and catalog handlers.

Modelling conventions:
* MongoDB documents become Lean structures; a collection is a `List`.
* `findOne` is first-match lookup; `updateOne` updates the first matching
  document only, mirroring MongoDB single-document update semantics.
* JS numbers are modelled as `ℚ` for catalog price arithmetic (the handlers
  only add, subtract, multiply and divide by the literal 100) and as `ℤ` for
  stock quantities in the order handlers (the `$toInt` conversion in the
  order-creation pipeline is the identity on this model).
* `NaN` is modelled as `none : Option ℚ`; JS `Number(...)` coercion becomes
  `toNumber : JSValue → Option ℚ`, including a faithful decimal-string
  parser for the string case (exponent and hex forms are not needed by any
  input considered here).
* `new Date()` timestamps are an explicit `now : Nat` parameter.
* ObjectId well-formedness checks are elided: identifiers are opaque
  strings.
-/

namespace Coconut

/-- Model of a dynamically typed JS value as it appears in request bodies.
`nan` is the not-a-number value; `undef` models an absent field. Only the
value shapes the handlers actually branch on are represented. -/
inductive JSValue where
  | num (q : ℚ)
  | nan
  | str (s : String)
  | null
  | undef
  | boolean (b : Bool)
  deriving DecidableEq

/-- Accumulate a list of decimal digit characters into a natural number,
most significant digit first. -/
def digitsToNat (cs : List Char) : Nat :=
  cs.foldl (fun a c => 10 * a + (c.toNat - 48)) 0

/-- Parse an unsigned decimal literal (`"12"`, `"12.5"`, `"12."`, `".5"`)
the way JS `Number(...)` reads a trimmed numeric string; any other shape is
not a number (`none`). -/
def parseUnsignedDec (cs : List Char) : Option ℚ :=
  let intPart := cs.takeWhile Char.isDigit
  let rest := cs.dropWhile Char.isDigit
  match rest with
  | [] => if intPart.isEmpty then none else some (digitsToNat intPart : ℚ)
  | '.' :: frac =>
      if frac.all Char.isDigit && !(intPart.isEmpty && frac.isEmpty) then
        some ((digitsToNat intPart : ℚ) + (digitsToNat frac : ℚ) / ((10 : ℚ) ^ frac.length))
      else none
  | _ => none

/-- Strip leading and trailing whitespace from a character list (JS
`String.prototype.trim`). -/
def trimChars (cs : List Char) : List Char :=
  ((cs.dropWhile Char.isWhitespace).reverse.dropWhile Char.isWhitespace).reverse

/-- JS `Number(s)` on a string: trimmed empty string is `0`, otherwise an
optionally signed decimal literal; anything else is NaN (`none`). -/
def jsStringToNumber (s : String) : Option ℚ :=
  match trimChars s.data with
  | [] => some 0
  | '-' :: rest => (parseUnsignedDec rest).map (fun q => -q)
  | '+' :: rest => parseUnsignedDec rest
  | cs => parseUnsignedDec cs

/-- JS `Number(v)` coercion; `none` is NaN. -/
def toNumber : JSValue → Option ℚ
  | .num q => some q
  | .nan => none
  | .str s => jsStringToNumber s
  | .null => some 0
  | .undef => none
  | .boolean b => some (if b then 1 else 0)

/-- JS truthiness of a value. -/
def truthy : JSValue → Bool
  | .num q => q != 0
  | .nan => false
  | .str s => s != ""
  | .null => false
  | .undef => false
  | .boolean b => b

/-- JS loose equality with null (`v == null`): true exactly for `null` and
`undefined`. -/
def isNullish : JSValue → Bool
  | .null => true
  | .undef => true
  | _ => false

/-- Lift a binary rational operation to NaN-propagating JS arithmetic. -/
def nanLift2 (f : ℚ → ℚ → ℚ) : Option ℚ → Option ℚ → Option ℚ
  | some a, some b => some (f a b)
  | _, _ => none

/-- Model of `Number(x.toFixed(2))`: round to two decimal places, halves
up. -/
def round2 (q : ℚ) : ℚ := ((⌊100 * q + 1 / 2⌋ : ℤ) : ℚ) / 100

/-- Shape of every handler response that matters to the claims: HTTP status
code, the `success` flag and the `message` string of the JSON body. -/
structure ApiResult where
  status : Nat
  success : Bool
  message : String
  deriving DecidableEq

/-! ### Order-lifecycle model

The order handlers touch a product document only through its `_id` and
`stock` fields, so the product model for this part carries exactly those. -/

/-- A product document as seen by the order handlers: its `_id` (`pid`) and
its integer stock. -/
structure Product where
  pid : String
  stock : Int
  deriving DecidableEq

/-- A cart item `{productId, _id, name, quantity}`. `mongoId` models the
item's `_id` field, used as fallback by the order-update handler's
`item.productId || item._id` resolution. -/
structure CartItem where
  productId : String
  mongoId : String
  name : String
  quantity : Int
  deriving DecidableEq

/-- An entry of the order-update request's `originalItems` list: the
product `_id` (`mongoId`) and the previously ordered quantity. -/
structure OrigItem where
  mongoId : String
  quantity : Int
  deriving DecidableEq

/-- An order document in the `orders` collection. -/
structure OrderDoc where
  orderId : String
  invoiceNumber : String
  customer : String
  pricing : String
  cartItems : List CartItem
  status : String
  createdAt : Nat
  updatedAt : Option Nat
  canceledAt : Option Nat
  returnedAt : Option Nat
  deriving DecidableEq

/-- The body of a `POST /orders` request (fields the handler reads; the
opaque `customer` and `pricing` payloads are carried through verbatim). -/
structure OrderBody where
  invoiceNumber : String
  customer : String
  pricing : String
  cartItems : List CartItem
  deriving DecidableEq

/-- The body of a `PUT /orders/:id` request. -/
structure OrderUpdateBody where
  customer : String
  pricing : String
  status : String
  cartItems : List CartItem
  originalItems : List OrigItem
  deriving DecidableEq

/-- The database state the order handlers read and write. -/
structure DB where
  products : List Product
  orders : List OrderDoc
  deriving DecidableEq

/-- MongoDB `findOne({_id: pid})` on the products collection: first match. -/
def findProduct : List Product → String → Option Product
  | [], _ => none
  | p :: ps, pid => if p.pid == pid then some p else findProduct ps pid

/-- Stock of the first product with the given id, if any. -/
def stockOf (ps : List Product) (pid : String) : Option Int :=
  (findProduct ps pid).map Product.stock

/-- MongoDB `updateOne({_id: pid}, {$inc: {stock: d}})`: add `d` to the
stock of the first matching product; no-op when no product matches. -/
def incStock : List Product → String → Int → List Product
  | [], _, _ => []
  | p :: ps, pid, d =>
      if p.pid == pid then { p with stock := p.stock + d } :: ps
      else p :: incStock ps pid d

/-- MongoDB `findOne({_id: oid})` on the orders collection. -/
def findOrder : List OrderDoc → String → Option OrderDoc
  | [], _ => none
  | o :: os, oid => if o.orderId == oid then some o else findOrder os oid

/-- MongoDB `updateOne({_id: oid}, {$set: ...})` on the orders collection:
apply `f` to the first matching order. -/
def updateFirstOrder (f : OrderDoc → OrderDoc) : List OrderDoc → String → List OrderDoc
  | [], _ => []
  | o :: os, oid =>
      if o.orderId == oid then f o :: os else o :: updateFirstOrder f os oid

/-- The `findOne({invoiceNumber})` duplicate-invoice check of `POST /orders`,
reduced to its boolean outcome. -/
def invoiceExists : List OrderDoc → String → Bool
  | [], _ => false
  | o :: os, inv => o.invoiceNumber == inv || invoiceExists os inv

/-- The stock-check loop of `POST /orders`: the first failing item produces
the response the handler returns; `none` means validation passed. -/
def validateCart (ps : List Product) : List CartItem → Option ApiResult
  | [] => none
  | item :: rest =>
      match findProduct ps item.productId with
      | none => some ⟨404, false, "Product not found: " ++ item.name⟩
      | some product =>
          if product.stock < item.quantity then
            some ⟨400, false, "Insufficient stock for " ++ item.name⟩
          else validateCart ps rest

/-- The stock-update loop of `POST /orders`: subtract each item's quantity
from its product's stock (the `$toInt` in the update pipeline is the
identity here since stock is an integer). -/
def decrementCart (ps : List Product) : List CartItem → List Product
  | [] => ps
  | item :: rest => decrementCart (incStock ps item.productId (-item.quantity)) rest

/-- Handler for `POST /orders`: duplicate-invoice check, then the full
stock-check loop, then insert the order with status `"pending"` and
`createdAt := now` and run the stock-update loop. `newId` is the `_id`
MongoDB generates for the inserted order. -/
def createOrder (db : DB) (body : OrderBody) (newId : String) (now : Nat) :
    ApiResult × DB :=
  if invoiceExists db.orders body.invoiceNumber then
    (⟨400, false, "Invoice number already exists!"⟩, db)
  else
    match validateCart db.products body.cartItems with
    | some r => (r, db)
    | none =>
        (⟨200, true, "Order placed successfully"⟩,
          ⟨decrementCart db.products body.cartItems,
            db.orders ++ [⟨newId, body.invoiceNumber, body.customer, body.pricing,
              body.cartItems, "pending", now, none, none, none⟩]⟩)

/-- The `item.productId || item._id` identifier resolution used by the
order-update handler (the empty string is the only falsy string). -/
def resolvedId (i : CartItem) : String :=
  if i.productId == "" then i.mongoId else i.productId

/-- STEP 1 of `PUT /orders/:id`: for every original item with no matching
item in the new cart, restore its full original quantity to stock. -/
def restoreRemoved (cart : List CartItem) : List OrigItem → List Product → List Product
  | [], ps => ps
  | o :: os, ps =>
      if cart.any (fun i => resolvedId i == o.mongoId) then restoreRemoved cart os ps
      else restoreRemoved cart os (incStock ps o.mongoId o.quantity)

/-- STEP 2 of `PUT /orders/:id`: new items decrement stock by their
quantity; items present in both lists decrement stock by the quantity
delta, skipping the write when the delta is zero. -/
def syncItems (orig : List OrigItem) : List CartItem → List Product → List Product
  | [], ps => ps
  | i :: rest, ps =>
      match orig.find? (fun o => o.mongoId == resolvedId i) with
      | none => syncItems orig rest (incStock ps (resolvedId i) (-i.quantity))
      | some o =>
          if i.quantity - o.quantity = 0 then syncItems orig rest ps
          else syncItems orig rest (incStock ps (resolvedId i) (-(i.quantity - o.quantity)))

/-- Field assignments of the `$set` clause of `PUT /orders/:id`. -/
def setOrderFields (body : OrderUpdateBody) (now : Nat) (o : OrderDoc) : OrderDoc :=
  { o with
    customer := body.customer
    cartItems := body.cartItems
    pricing := body.pricing
    status := body.status
    updatedAt := some now }

/-- Handler for `PUT /orders/:id`: apply both stock-reconciliation loops,
then `$set` the new order fields on the first order matching `oid` (a no-op
when none matches) and respond with success unconditionally. -/
def updateOrder (db : DB) (oid : String) (body : OrderUpdateBody) (now : Nat) :
    ApiResult × DB :=
  (⟨200, true, "Order updated successfully"⟩,
    ⟨syncItems body.originalItems body.cartItems
        (restoreRemoved body.cartItems body.originalItems db.products),
      updateFirstOrder (setOrderFields body now) db.orders oid⟩)

/-- Field assignments of the `$set` clause of the cancel handler. -/
def cancelStamp (now : Nat) (x : OrderDoc) : OrderDoc :=
  { x with status := "canceled", canceledAt := some now }

/-- Field assignments of the `$set` clause of the return handler. -/
def returnStamp (now : Nat) (x : OrderDoc) : OrderDoc :=
  { x with status := "returned", returnedAt := some now }

/-- Field assignment of the `$set` clause of the confirm handler. -/
def confirmStamp (x : OrderDoc) : OrderDoc := { x with status := "confirmed" }

/-- The stock-restoration loop shared by the cancel and return handlers:
`$inc` each cart item's quantity back onto its product's stock. -/
def restoreCart (ps : List Product) : List CartItem → List Product
  | [] => ps
  | i :: rest => restoreCart (incStock ps i.productId i.quantity) rest

/-- Handler for `PATCH /orders/cancel/:id`. -/
def cancelOrder (db : DB) (oid : String) (now : Nat) : ApiResult × DB :=
  match findOrder db.orders oid with
  | none => (⟨404, false, "Order not found"⟩, db)
  | some order =>
      if order.status == "canceled" then
        (⟨400, false, "Order already canceled"⟩, db)
      else
        (⟨200, true, "Order canceled and stock restored successfully"⟩,
          ⟨restoreCart db.products order.cartItems,
            updateFirstOrder (cancelStamp now) db.orders oid⟩)

/-- Handler for `PATCH /orders/return/:id`. -/
def returnOrder (db : DB) (oid : String) (now : Nat) : ApiResult × DB :=
  match findOrder db.orders oid with
  | none => (⟨404, false, "Order not found"⟩, db)
  | some order =>
      if order.status == "returned" then
        (⟨400, false, "Order already returned"⟩, db)
      else
        (⟨200, true, "Order returned and stock restored successfully"⟩,
          ⟨restoreCart db.products order.cartItems,
            updateFirstOrder (returnStamp now) db.orders oid⟩)

/-- Handler for `PATCH /orders/confirm/:id`: `$set` status `"confirmed"`;
the handler reports success exactly when `modifiedCount` is 1, which holds
when an order matched and its status actually changed. -/
def confirmOrder (db : DB) (oid : String) : ApiResult × DB :=
  match findOrder db.orders oid with
  | none => (⟨200, false, "Order not found"⟩, db)
  | some order =>
      if order.status == "confirmed" then (⟨200, false, "Order not found"⟩, db)
      else
        (⟨200, true, "Order confirmed"⟩,
          ⟨db.products,
            updateFirstOrder confirmStamp db.orders oid⟩)

/-! ### Derived observation functions for the order model -/

/-- Total quantity the cart orders for a given product id (the single
item's quantity when item ids are distinct). -/
def cartQty : List CartItem → String → Int
  | [], _ => 0
  | i :: rest, q => (if i.productId = q then i.quantity else 0) + cartQty rest q

/-- Sum of all product stocks. -/
def totalStock (ps : List Product) : Int := (ps.map Product.stock).sum

/-- Net stock restored to product `q` by STEP 1 of the order-update
handler. -/
def restoredQty (cart : List CartItem) : List OrigItem → String → Int
  | [], _ => 0
  | o :: os, q =>
      (if cart.any (fun i => resolvedId i == o.mongoId) then 0
       else if o.mongoId = q then o.quantity else 0) + restoredQty cart os q

/-- Net stock change applied to product `q` by STEP 2 of the order-update
handler. -/
def syncAdj (orig : List OrigItem) : List CartItem → String → Int
  | [], _ => 0
  | i :: rest, q =>
      (if resolvedId i = q then
        match orig.find? (fun o => o.mongoId == resolvedId i) with
        | none => -i.quantity
        | some o => -(i.quantity - o.quantity)
       else 0) + syncAdj orig rest q

/-! ### Lemmas about the primitive store operations -/

lemma findProduct_incStock (ps : List Product) (pid : String) (d : Int) (q : String) :
    findProduct (incStock ps pid d) q =
      if q = pid then (findProduct ps q).map (fun p => { p with stock := p.stock + d })
      else findProduct ps q := by
  induction ps with
  | nil => by_cases h : q = pid <;> simp [incStock, findProduct, h]
  | cons p ps ih =>
      by_cases hp : p.pid = pid
      · by_cases hq : q = pid
        · have hpq : p.pid = q := hp.trans hq.symm
          simp [incStock, findProduct, hp, hq, hpq]
        · have hpq : p.pid ≠ q := fun h => hq (h.symm.trans hp)
          simp [incStock, findProduct, hp, hq, hpq, Ne.symm hq]
      · by_cases hpq : p.pid = q
        · have hq : q ≠ pid := fun h => hp (hpq.trans h)
          simp [incStock, findProduct, hp, hq, hpq]
        · simp [incStock, findProduct, hp, hpq, ih]

lemma stockOf_incStock (ps : List Product) (pid : String) (d : Int) (q : String) :
    stockOf (incStock ps pid d) q =
      if q = pid then (stockOf ps q).map (fun s => s + d) else stockOf ps q := by
  unfold stockOf
  rw [findProduct_incStock]
  by_cases h : q = pid
  · simp [h, Option.map_map]
    rfl
  · simp [h]

lemma findProduct_isSome_incStock (ps : List Product) (pid : String) (d : Int)
    (q : String) :
    (findProduct (incStock ps pid d) q).isSome = (findProduct ps q).isSome := by
  rw [findProduct_incStock]
  by_cases h : q = pid <;> simp [h]

lemma totalStock_incStock (ps : List Product) (pid : String) (d : Int) :
    totalStock (incStock ps pid d) =
      totalStock ps + (if (findProduct ps pid).isSome then d else 0) := by
  induction ps with
  | nil => simp [incStock, totalStock, findProduct]
  | cons p ps ih =>
      by_cases hp : p.pid = pid
      · simp [incStock, totalStock, findProduct, hp]
        ring
      · simp only [incStock, totalStock, findProduct, hp] at ih ⊢
        simp only [beq_iff_eq, hp, if_false, List.map_cons, List.sum_cons, if_neg,
          not_false_iff]
        omega

lemma nonneg_incStock (ps : List Product) (pid : String) (d : Int)
    (h0 : ∀ p ∈ ps, 0 ≤ p.stock)
    (hd : ∀ p, findProduct ps pid = some p → 0 ≤ p.stock + d) :
    ∀ p ∈ incStock ps pid d, 0 ≤ p.stock := by
  induction ps with
  | nil => simp [incStock]
  | cons p ps ih =>
      by_cases hp : p.pid = pid
      · intro x hx
        simp only [incStock, hp, beq_self_eq_true, if_true] at hx
        rcases List.mem_cons.mp hx with h | h
        · subst h
          exact hd p (by simp [findProduct, hp])
        · exact h0 x (List.mem_cons_of_mem _ h)
      · intro x hx
        simp only [incStock, beq_iff_eq, hp, if_false] at hx
        rcases List.mem_cons.mp hx with h | h
        · subst h; exact h0 x (List.mem_cons_self _ _)
        · exact ih (fun y hy => h0 y (List.mem_cons_of_mem _ hy))
            (fun y hy => hd y (by simpa [findProduct, beq_iff_eq, hp] using hy)) x h

/-! ### Lemmas about the order-creation loops -/

lemma stockOf_decrementCart (items : List CartItem) (ps : List Product) (q : String) :
    stockOf (decrementCart ps items) q =
      (stockOf ps q).map (fun s => s - cartQty items q) := by
  induction items generalizing ps with
  | nil =>
      cases h : stockOf ps q <;> simp [decrementCart, cartQty, h]
  | cons i rest ih =>
      simp only [decrementCart, cartQty]
      rw [ih, stockOf_incStock]
      by_cases h : q = i.productId
      · rw [if_pos h, if_pos h.symm]
        cases stockOf ps q with
        | none => rfl
        | some s =>
            simp only [Option.map_some', Option.some.injEq]
            omega
      · rw [if_neg h, if_neg (fun hh => h hh.symm)]
        cases stockOf ps q with
        | none => rfl
        | some s =>
            simp only [Option.map_some', Option.some.injEq]
            omega

lemma stockOf_restoreCart (items : List CartItem) (ps : List Product) (q : String) :
    stockOf (restoreCart ps items) q =
      (stockOf ps q).map (fun s => s + cartQty items q) := by
  induction items generalizing ps with
  | nil =>
      cases h : stockOf ps q <;> simp [restoreCart, cartQty, h]
  | cons i rest ih =>
      simp only [restoreCart, cartQty]
      rw [ih, stockOf_incStock]
      by_cases h : q = i.productId
      · rw [if_pos h, if_pos h.symm]
        cases stockOf ps q with
        | none => rfl
        | some s =>
            simp only [Option.map_some', Option.some.injEq]
            omega
      · rw [if_neg h, if_neg (fun hh => h hh.symm)]
        cases stockOf ps q with
        | none => rfl
        | some s =>
            simp only [Option.map_some', Option.some.injEq]
            omega

lemma cartQty_of_not_mem (items : List CartItem) (q : String)
    (h : ∀ i ∈ items, i.productId ≠ q) : cartQty items q = 0 := by
  induction items with
  | nil => rfl
  | cons i rest ih =>
      have h1 : i.productId ≠ q := h i (List.mem_cons_self _ _)
      have h2 : cartQty rest q = 0 := ih (fun j hj => h j (List.mem_cons_of_mem _ hj))
      simp [cartQty, h1, h2]

lemma cartQty_of_nodup (items : List CartItem) (i : CartItem)
    (hnd : (items.map CartItem.productId).Nodup) (hmem : i ∈ items) :
    cartQty items i.productId = i.quantity := by
  induction items with
  | nil => cases hmem
  | cons j rest ih =>
      simp only [List.map_cons, List.nodup_cons] at hnd
      rcases List.mem_cons.mp hmem with h | h
      · subst h
        have hz : cartQty rest i.productId = 0 :=
          cartQty_of_not_mem rest i.productId (fun k hk he =>
            hnd.1 (he ▸ List.mem_map_of_mem CartItem.productId hk))
        simp [cartQty, hz]
      · have hne : j.productId ≠ i.productId := fun he =>
          hnd.1 (he ▸ List.mem_map_of_mem CartItem.productId h)
        simp [cartQty, hne, ih hnd.2 h]

lemma totalStock_decrementCart (items : List CartItem) (ps : List Product)
    (hall : ∀ i ∈ items, (findProduct ps i.productId).isSome = true) :
    totalStock (decrementCart ps items) =
      totalStock ps - (items.map CartItem.quantity).sum := by
  induction items generalizing ps with
  | nil => simp [decrementCart]
  | cons i rest ih =>
      simp only [decrementCart]
      rw [ih _ (fun j hj => by
        rw [findProduct_isSome_incStock]
        exact hall j (List.mem_cons_of_mem _ hj))]
      rw [totalStock_incStock]
      simp only [hall i (List.mem_cons_self _ _), if_true, List.map_cons, List.sum_cons]
      omega

lemma validateCart_eq_none_iff (ps : List Product) (items : List CartItem) :
    validateCart ps items = none ↔
      ∀ i ∈ items, ∃ p, findProduct ps i.productId = some p ∧ i.quantity ≤ p.stock := by
  induction items with
  | nil => simp [validateCart]
  | cons i rest ih =>
      constructor
      · intro h j hj
        cases hf : findProduct ps i.productId with
        | none => simp [validateCart, hf] at h
        | some p =>
            by_cases hq : p.stock < i.quantity
            · simp [validateCart, hf, hq] at h
            · have hrest : validateCart ps rest = none := by
                simpa [validateCart, hf, hq] using h
              rcases List.mem_cons.mp hj with h1 | h1
              · exact h1 ▸ ⟨p, hf, not_lt.mp hq⟩
              · exact ih.mp hrest j h1
      · intro h
        rcases h i (List.mem_cons_self _ _) with ⟨p, hf, hle⟩
        simp only [validateCart, hf]
        rw [if_neg (not_lt.mpr hle)]
        exact ih.mpr (fun j hj => h j (List.mem_cons_of_mem _ hj))

lemma validateCart_success_false (ps : List Product) (items : List CartItem)
    (r : ApiResult) (h : validateCart ps items = some r) : r.success = false := by
  induction items with
  | nil => simp [validateCart] at h
  | cons i rest ih =>
      cases hf : findProduct ps i.productId with
      | none =>
          simp only [validateCart, hf] at h
          cases h; rfl
      | some p =>
          by_cases hq : p.stock < i.quantity
          · simp only [validateCart, hf, hq, if_true] at h
            cases h; rfl
          · simp only [validateCart, hf, hq, if_false] at h
            exact ih h

lemma invoiceExists_iff (os : List OrderDoc) (inv : String) :
    invoiceExists os inv = true ↔ ∃ o ∈ os, o.invoiceNumber = inv := by
  induction os with
  | nil => simp [invoiceExists]
  | cons o os ih => simp [invoiceExists, ih]

lemma findOrder_updateFirstOrder (f : OrderDoc → OrderDoc) (os : List OrderDoc)
    (oid : String) (hf : ∀ o, (f o).orderId = o.orderId) :
    findOrder (updateFirstOrder f os oid) oid = (findOrder os oid).map f := by
  induction os with
  | nil => simp [updateFirstOrder, findOrder]
  | cons o os ih =>
      by_cases h : o.orderId = oid
      · simp [updateFirstOrder, findOrder, h, hf o]
      · simp [updateFirstOrder, findOrder, h, ih]

lemma updateFirstOrder_of_none (f : OrderDoc → OrderDoc) (os : List OrderDoc)
    (oid : String) (h : findOrder os oid = none) :
    updateFirstOrder f os oid = os := by
  induction os with
  | nil => rfl
  | cons o os ih =>
      by_cases ho : o.orderId = oid
      · simp [findOrder, ho] at h
      · simp only [findOrder, beq_iff_eq, ho, if_neg, not_false_iff, if_false] at h
        simp [updateFirstOrder, ho, ih h]

/-! ### Lemmas about the order-update reconciliation loops -/

lemma stockOf_restoreRemoved (cart : List CartItem) (os : List OrigItem)
    (ps : List Product) (q : String) :
    stockOf (restoreRemoved cart os ps) q =
      (stockOf ps q).map (fun s => s + restoredQty cart os q) := by
  induction os generalizing ps with
  | nil =>
      cases h : stockOf ps q <;> simp [restoreRemoved, restoredQty, h]
  | cons o os ih =>
      simp only [restoreRemoved, restoredQty]
      by_cases hin : cart.any (fun i => resolvedId i == o.mongoId)
      · rw [if_pos hin, if_pos hin, ih]
        cases stockOf ps q with
        | none => rfl
        | some s =>
            simp only [Option.map_some', Option.some.injEq]
            omega
      · rw [if_neg hin, if_neg hin, ih, stockOf_incStock]
        by_cases hq : q = o.mongoId
        · rw [if_pos hq, if_pos hq.symm]
          cases stockOf ps q with
          | none => rfl
          | some s =>
              simp only [Option.map_some', Option.some.injEq]
              omega
        · rw [if_neg hq, if_neg (fun hh => hq hh.symm)]
          cases stockOf ps q with
          | none => rfl
          | some s =>
              simp only [Option.map_some', Option.some.injEq]
              omega

lemma stockOf_syncItems (orig : List OrigItem) (cart : List CartItem)
    (ps : List Product) (q : String) :
    stockOf (syncItems orig cart ps) q =
      (stockOf ps q).map (fun s => s + syncAdj orig cart q) := by
  induction cart generalizing ps with
  | nil =>
      cases h : stockOf ps q <;> simp [syncItems, syncAdj, h]
  | cons i rest ih =>
      cases hf : orig.find? (fun o => o.mongoId == resolvedId i) with
      | none =>
          have hs : syncItems orig (i :: rest) ps =
              syncItems orig rest (incStock ps (resolvedId i) (-i.quantity)) := by
            simp only [syncItems, hf]
          have ha : syncAdj orig (i :: rest) q =
              (if resolvedId i = q then -i.quantity else 0) + syncAdj orig rest q := by
            simp only [syncAdj, hf]
          rw [hs, ha, ih, stockOf_incStock]
          by_cases hq : q = resolvedId i
          · rw [if_pos hq, if_pos hq.symm]
            cases stockOf ps q with
            | none => rfl
            | some s =>
                simp only [Option.map_some', Option.some.injEq]
                omega
          · rw [if_neg hq, if_neg (fun hh => hq hh.symm)]
            cases stockOf ps q with
            | none => rfl
            | some s =>
                simp only [Option.map_some', Option.some.injEq]
                omega
      | some o =>
          have hs : syncItems orig (i :: rest) ps =
              (if i.quantity - o.quantity = 0 then syncItems orig rest ps
               else syncItems orig rest
                 (incStock ps (resolvedId i) (-(i.quantity - o.quantity)))) := by
            simp only [syncItems, hf]
          have ha : syncAdj orig (i :: rest) q =
              (if resolvedId i = q then -(i.quantity - o.quantity) else 0) +
                syncAdj orig rest q := by
            simp only [syncAdj, hf]
          rw [hs, ha]
          by_cases hz : i.quantity - o.quantity = 0
          · rw [if_pos hz, ih]
            by_cases hq : resolvedId i = q
            · rw [if_pos hq, hz]
              cases stockOf ps q with
              | none => rfl
              | some s =>
                  simp only [Option.map_some', Option.some.injEq]
                  omega
            · rw [if_neg hq]
              cases stockOf ps q with
              | none => rfl
              | some s =>
                  simp only [Option.map_some', Option.some.injEq]
                  omega
          · rw [if_neg hz, ih, stockOf_incStock]
            by_cases hq : q = resolvedId i
            · rw [if_pos hq, if_pos hq.symm]
              cases stockOf ps q with
              | none => rfl
              | some s =>
                  simp only [Option.map_some', Option.some.injEq]
                  omega
            · rw [if_neg hq, if_neg (fun hh => hq hh.symm)]
              cases stockOf ps q with
              | none => rfl
              | some s =>
                  simp only [Option.map_some', Option.some.injEq]
                  omega

lemma stockOf_updateOrder (db : DB) (oid : String) (body : OrderUpdateBody)
    (now : Nat) (q : String) :
    stockOf (updateOrder db oid body now).2.products q =
      (stockOf db.products q).map (fun s =>
        s + restoredQty body.cartItems body.originalItems q
          + syncAdj body.originalItems body.cartItems q) := by
  show stockOf (syncItems body.originalItems body.cartItems
      (restoreRemoved body.cartItems body.originalItems db.products)) q = _
  rw [stockOf_syncItems, stockOf_restoreRemoved]
  cases stockOf db.products q <;> simp

lemma restoredQty_of_mem_cart (cart : List CartItem) (os : List OrigItem)
    (i : CartItem) (q : String) (hmem : i ∈ cart) (hid : resolvedId i = q) :
    restoredQty cart os q = 0 := by
  induction os with
  | nil => rfl
  | cons o os ih =>
      have ho : (if cart.any (fun j => resolvedId j == o.mongoId) then 0
          else if o.mongoId = q then o.quantity else 0) = 0 := by
        by_cases hin : cart.any (fun j => resolvedId j == o.mongoId)
        · rw [if_pos hin]
        · rw [if_neg hin]
          have hne : o.mongoId ≠ q := by
            intro he
            exact hin (List.any_eq_true.mpr ⟨i, hmem, by simp [hid, he]⟩)
          rw [if_neg hne]
      simp only [restoredQty, ho, ih, add_zero]

lemma restoredQty_zero_of_no_id (cart : List CartItem) (os : List OrigItem)
    (q : String) (h : ∀ o ∈ os, o.mongoId ≠ q) :
    restoredQty cart os q = 0 := by
  induction os with
  | nil => rfl
  | cons o os ih =>
      have ht : (if cart.any (fun j => resolvedId j == o.mongoId) then 0
          else if o.mongoId = q then o.quantity else 0) = 0 := by
        by_cases hin : cart.any (fun j => resolvedId j == o.mongoId)
        · rw [if_pos hin]
        · rw [if_neg hin, if_neg (h o (List.mem_cons_self _ _))]
      simp only [restoredQty, ht, ih (fun j hj => h j (List.mem_cons_of_mem _ hj)),
        zero_add]

lemma restoredQty_of_not_mem_cart (cart : List CartItem) (os : List OrigItem)
    (o : OrigItem) (q : String)
    (hno : ∀ i ∈ cart, resolvedId i ≠ q)
    (hnd : (os.map OrigItem.mongoId).Nodup) (hmem : o ∈ os) (hid : o.mongoId = q) :
    restoredQty cart os q = o.quantity := by
  induction os with
  | nil => cases hmem
  | cons o2 os ih =>
      simp only [List.map_cons, List.nodup_cons] at hnd
      rcases List.mem_cons.mp hmem with h | h
      · subst h
        have hin : ¬(cart.any (fun j => resolvedId j == o.mongoId)) = true := by
          simp only [List.any_eq_true, not_exists, not_and]
          intro j hj
          simp [show resolvedId j ≠ o.mongoId from fun he => hno j hj (he.trans hid)]
        have hz : restoredQty cart os q = 0 :=
          restoredQty_zero_of_no_id cart os q (fun o3 h3 he =>
            hnd.1 (by rw [hid, ← he]; exact List.mem_map_of_mem OrigItem.mongoId h3))
        simp only [restoredQty, hz, add_zero]
        rw [if_neg hin, if_pos hid]
      · have hne : o2.mongoId ≠ q := fun he =>
          hnd.1 (by rw [he, ← hid]; exact List.mem_map_of_mem OrigItem.mongoId h)
        have ht : (if cart.any (fun j => resolvedId j == o2.mongoId) then 0
            else if o2.mongoId = q then o2.quantity else 0) = 0 := by
          by_cases hin : cart.any (fun j => resolvedId j == o2.mongoId)
          · rw [if_pos hin]
          · rw [if_neg hin, if_neg hne]
        simp only [restoredQty, ht, ih hnd.2 h, zero_add]

lemma syncAdj_of_not_mem_cart (orig : List OrigItem) (cart : List CartItem)
    (q : String) (hno : ∀ i ∈ cart, resolvedId i ≠ q) :
    syncAdj orig cart q = 0 := by
  induction cart with
  | nil => rfl
  | cons i rest ih =>
      simp only [syncAdj, hno i (List.mem_cons_self _ _), if_neg, not_false_iff]
      rw [ih (fun j hj => hno j (List.mem_cons_of_mem _ hj))]
      omega

lemma syncAdj_of_mem_cart (orig : List OrigItem) (cart : List CartItem)
    (i : CartItem) (q : String)
    (hnd : (cart.map resolvedId).Nodup) (hmem : i ∈ cart) (hid : resolvedId i = q) :
    syncAdj orig cart q =
      (match orig.find? (fun o => o.mongoId == q) with
       | none => -i.quantity
       | some o => -(i.quantity - o.quantity)) := by
  induction cart with
  | nil => cases hmem
  | cons j rest ih =>
      simp only [List.map_cons, List.nodup_cons] at hnd
      rcases List.mem_cons.mp hmem with h | h
      · subst h
        have hz : syncAdj orig rest q = 0 :=
          syncAdj_of_not_mem_cart orig rest q (fun k hk he =>
            hnd.1 (by rw [hid, ← he]; exact List.mem_map_of_mem resolvedId hk))
        simp only [syncAdj, hz, add_zero, hid, eq_self_iff_true, if_true]
      · have hne : resolvedId j ≠ q := fun he =>
          hnd.1 (by rw [he, ← hid]; exact List.mem_map_of_mem resolvedId h)
        simp only [syncAdj]
        rw [if_neg hne, ih hnd.2 h, zero_add]

lemma syncAdj_of_mem_cart_no_orig (orig : List OrigItem) (cart : List CartItem)
    (i : CartItem) (q : String)
    (hnd : (cart.map resolvedId).Nodup) (hmem : i ∈ cart) (hid : resolvedId i = q)
    (hfind : orig.find? (fun o => o.mongoId == q) = none) :
    syncAdj orig cart q = -i.quantity := by
  rw [syncAdj_of_mem_cart orig cart i q hnd hmem hid, hfind]

lemma syncAdj_of_mem_cart_with_orig (orig : List OrigItem) (cart : List CartItem)
    (i : CartItem) (o : OrigItem) (q : String)
    (hnd : (cart.map resolvedId).Nodup) (hmem : i ∈ cart) (hid : resolvedId i = q)
    (hfind : orig.find? (fun x => x.mongoId == q) = some o) :
    syncAdj orig cart q = -(i.quantity - o.quantity) := by
  rw [syncAdj_of_mem_cart orig cart i q hnd hmem hid, hfind]

lemma origFind_of_not_mem (orig : List OrigItem) (q : String)
    (hno : ∀ o ∈ orig, o.mongoId ≠ q) :
    orig.find? (fun o => o.mongoId == q) = none := by
  induction orig with
  | nil => rfl
  | cons o os ih =>
      simp only [List.find?_cons]
      have : (o.mongoId == q) = false := by
        simp [hno o (List.mem_cons_self _ _)]
      rw [this]
      exact ih (fun j hj => hno j (List.mem_cons_of_mem _ hj))

lemma origFind_of_mem (orig : List OrigItem) (o : OrigItem) (q : String)
    (hnd : (orig.map OrigItem.mongoId).Nodup) (hmem : o ∈ orig) (hid : o.mongoId = q) :
    orig.find? (fun x => x.mongoId == q) = some o := by
  induction orig with
  | nil => cases hmem
  | cons o2 os ih =>
      simp only [List.map_cons, List.nodup_cons] at hnd
      rcases List.mem_cons.mp hmem with h | h
      · subst h
        simp [List.find?_cons, hid]
      · have hne : o2.mongoId ≠ q := by
          intro he
          exact hnd.1 (by rw [he, ← hid]; exact List.mem_map_of_mem OrigItem.mongoId h)
        simp only [List.find?_cons]
        have : (o2.mongoId == q) = false := by simp [hne]
        rw [this]
        exact ih hnd.2 h

/-! ### Branch equations for the order-creation handler -/

lemma createOrder_dup_eq (db : DB) (body : OrderBody) (newId : String) (now : Nat)
    (hinv : invoiceExists db.orders body.invoiceNumber = true) :
    createOrder db body newId now =
      (⟨400, false, "Invoice number already exists!"⟩, db) := by
  simp [createOrder, hinv]

lemma createOrder_invalid_eq (db : DB) (body : OrderBody) (newId : String) (now : Nat)
    (r : ApiResult)
    (hinv : invoiceExists db.orders body.invoiceNumber = false)
    (hv : validateCart db.products body.cartItems = some r) :
    createOrder db body newId now = (r, db) := by
  simp [createOrder, hinv, hv]

lemma createOrder_valid_eq (db : DB) (body : OrderBody) (newId : String) (now : Nat)
    (hinv : invoiceExists db.orders body.invoiceNumber = false)
    (hv : validateCart db.products body.cartItems = none) :
    createOrder db body newId now =
      (⟨200, true, "Order placed successfully"⟩,
        ⟨decrementCart db.products body.cartItems,
          db.orders ++ [⟨newId, body.invoiceNumber, body.customer, body.pricing,
            body.cartItems, "pending", now, none, none, none⟩]⟩) := by
  simp [createOrder, hinv, hv]

lemma nonneg_decrementCart (items : List CartItem) (ps : List Product)
    (h0 : ∀ p ∈ ps, 0 ≤ p.stock)
    (hnd : (items.map CartItem.productId).Nodup)
    (hval : ∀ i ∈ items, ∃ p, findProduct ps i.productId = some p ∧
      i.quantity ≤ p.stock) :
    ∀ p ∈ decrementCart ps items, 0 ≤ p.stock := by
  induction items generalizing ps with
  | nil => simpa [decrementCart] using h0
  | cons i rest ih =>
      simp only [decrementCart]
      simp only [List.map_cons, List.nodup_cons] at hnd
      apply ih
      · apply nonneg_incStock _ _ _ h0
        intro p hp
        rcases hval i (List.mem_cons_self _ _) with ⟨p0, hf, hle⟩
        rw [hf] at hp
        have := Option.some.inj hp
        subst this
        omega
      · exact hnd.2
      · intro j hj
        rcases hval j (List.mem_cons_of_mem _ hj) with ⟨p0, hf, hle⟩
        refine ⟨p0, ?_, hle⟩
        rw [findProduct_incStock]
        have hne : j.productId ≠ i.productId := fun he =>
          hnd.1 (he ▸ List.mem_map_of_mem CartItem.productId hj)
        rw [if_neg hne]
        exact hf

/-! ### Claims C1, C2, C3: order creation -/

/-- C1 (amended): order creation over a cart referencing distinct
products preserves stock non-negativity - when every stock is
non-negative beforehand, every stock is non-negative after the handler
runs, whether it accepts or rejects. The counterexample demonstrates the
escapes the original invariant has: an order update applies unchecked
deltas, a cart repeating a product validates every item against the
un-decremented stock, and product creation stores a negative stock
verbatim. -/
theorem createOrder_preserves_nonneg_stock
    (db : DB) (body : OrderBody) (newId : String) (now : Nat)
    (h0 : ∀ p ∈ db.products, 0 ≤ p.stock)
    (hnd : (body.cartItems.map CartItem.productId).Nodup) :
    ∀ p ∈ (createOrder db body newId now).2.products, 0 ≤ p.stock := by
  cases hinv : invoiceExists db.orders body.invoiceNumber with
  | true =>
      rw [createOrder_dup_eq db body newId now hinv]
      exact h0
  | false =>
      cases hv : validateCart db.products body.cartItems with
      | some r =>
          rw [createOrder_invalid_eq db body newId now r hinv hv]
          exact h0
      | none =>
          rw [createOrder_valid_eq db body newId now hinv hv]
          exact nonneg_decrementCart body.cartItems db.products h0 hnd
            ((validateCart_eq_none_iff db.products body.cartItems).mp hv)

/-- Witness for C1's amended theorem at a concrete store and order. -/
theorem createOrder_preserves_nonneg_stock_witness :
    (∀ p ∈ (⟨[⟨"A", 5⟩], []⟩ : DB).products, 0 ≤ p.stock) ∧
    ∀ p ∈ (createOrder ⟨[⟨"A", 5⟩], []⟩ ⟨"INV1", "c", "pr", [⟨"A", "A", "x", 3⟩]⟩
      "O1" 7).2.products, 0 ≤ p.stock :=
  ⟨by decide,
    createOrder_preserves_nonneg_stock ⟨[⟨"A", 5⟩], []⟩
      ⟨"INV1", "c", "pr", [⟨"A", "A", "x", 3⟩]⟩ "O1" 7 (by decide) (by decide)⟩

/-- C2: an order-creation request with a duplicate invoice number, a cart
item whose product is missing, or a cart item whose quantity exceeds the
product's stock is rejected, and the database (orders and every product's
stock) is left exactly as it was: the validation pass runs to completion
before any stock mutation. -/
theorem createOrder_rejects_without_mutation
    (db : DB) (body : OrderBody) (newId : String) (now : Nat)
    (h : (∃ o ∈ db.orders, o.invoiceNumber = body.invoiceNumber) ∨
         (∃ i ∈ body.cartItems, findProduct db.products i.productId = none) ∨
         (∃ i ∈ body.cartItems, ∃ p, findProduct db.products i.productId = some p ∧
            p.stock < i.quantity)) :
    (createOrder db body newId now).1.success = false ∧
    (createOrder db body newId now).2 = db := by
  cases hinv : invoiceExists db.orders body.invoiceNumber with
  | true => rw [createOrder_dup_eq db body newId now hinv]; exact ⟨rfl, rfl⟩
  | false =>
      cases hv : validateCart db.products body.cartItems with
      | some r =>
          rw [createOrder_invalid_eq db body newId now r hinv hv]
          exact ⟨validateCart_success_false db.products body.cartItems r hv, rfl⟩
      | none =>
          exfalso
          have hval := (validateCart_eq_none_iff db.products body.cartItems).mp hv
          rcases h with hdup | ⟨i, hi, hmiss⟩ | ⟨i, hi, p, hp, hlt⟩
          · rw [(invoiceExists_iff db.orders body.invoiceNumber).mpr hdup] at hinv
            cases hinv
          · rcases hval i hi with ⟨p, hf, _⟩
            rw [hmiss] at hf
            cases hf
          · rcases hval i hi with ⟨p2, hf, hle⟩
            rw [hp] at hf
            have := Option.some.inj hf
            subst this
            omega

/-- Witness for C2 at a concrete store: the cart asks for 7 units of a
product holding 5. -/
theorem createOrder_rejects_without_mutation_witness :
    (∃ i ∈ ([⟨"A", "A", "x", 7⟩] : List CartItem), ∃ p,
      findProduct ([⟨"A", 5⟩] : List Product) i.productId = some p ∧
        p.stock < i.quantity) ∧
    (createOrder ⟨[⟨"A", 5⟩], []⟩ ⟨"INV1", "c", "pr", [⟨"A", "A", "x", 7⟩]⟩
      "O1" 7).1.success = false ∧
    (createOrder ⟨[⟨"A", 5⟩], []⟩ ⟨"INV1", "c", "pr", [⟨"A", "A", "x", 7⟩]⟩
      "O1" 7).2 = (⟨[⟨"A", 5⟩], []⟩ : DB) :=
  ⟨by decide,
    createOrder_rejects_without_mutation ⟨[⟨"A", 5⟩], []⟩
      ⟨"INV1", "c", "pr", [⟨"A", "A", "x", 7⟩]⟩ "O1" 7
      (Or.inr (Or.inr (by decide)))⟩

/-- C3: a validated order creation (fresh invoice number, every cart item
backed by a product with sufficient stock, items referencing distinct
products) succeeds, appends the order with status `"pending"` and
`createdAt = now`, decrements each referenced product's stock by exactly
the ordered quantity, leaves every other product untouched, and the total
stock removed equals the sum of the ordered quantities. -/
theorem createOrder_persists_and_decrements
    (db : DB) (body : OrderBody) (newId : String) (now : Nat)
    (hinv : ∀ o ∈ db.orders, o.invoiceNumber ≠ body.invoiceNumber)
    (hval : ∀ i ∈ body.cartItems, ∃ p, findProduct db.products i.productId = some p ∧
      i.quantity ≤ p.stock)
    (hnd : (body.cartItems.map CartItem.productId).Nodup) :
    (createOrder db body newId now).1.success = true ∧
    (createOrder db body newId now).2.orders =
      db.orders ++ [⟨newId, body.invoiceNumber, body.customer, body.pricing,
        body.cartItems, "pending", now, none, none, none⟩] ∧
    (∀ i ∈ body.cartItems,
      stockOf (createOrder db body newId now).2.products i.productId =
        (stockOf db.products i.productId).map (fun s => s - i.quantity)) ∧
    (∀ q, (∀ i ∈ body.cartItems, i.productId ≠ q) →
      stockOf (createOrder db body newId now).2.products q = stockOf db.products q) ∧
    totalStock db.products - totalStock (createOrder db body newId now).2.products =
      (body.cartItems.map CartItem.quantity).sum := by
  have hinv2 : invoiceExists db.orders body.invoiceNumber = false := by
    cases hb : invoiceExists db.orders body.invoiceNumber with
    | false => rfl
    | true =>
        rcases (invoiceExists_iff db.orders body.invoiceNumber).mp hb with ⟨o, ho, he⟩
        exact absurd he (hinv o ho)
  have hv : validateCart db.products body.cartItems = none :=
    (validateCart_eq_none_iff db.products body.cartItems).mpr hval
  rw [createOrder_valid_eq db body newId now hinv2 hv]
  refine ⟨rfl, rfl, ?_, ?_, ?_⟩
  · intro i hi
    rw [stockOf_decrementCart, cartQty_of_nodup body.cartItems i hnd hi]
  · intro q hq
    rw [stockOf_decrementCart, cartQty_of_not_mem body.cartItems q hq]
    cases stockOf db.products q <;> simp
  · rw [totalStock_decrementCart body.cartItems db.products (fun i hi => by
      rcases hval i hi with ⟨p, hf, _⟩
      rw [hf]
      rfl)]
    omega

/-- Witness for C3: two items, quantities 3 and 2, against stocks 5 and
2. -/
theorem createOrder_persists_and_decrements_witness :
    ((∀ o ∈ ([] : List OrderDoc), o.invoiceNumber ≠ "INV1") ∧
     (∀ i ∈ ([⟨"A", "A", "x", 3⟩, ⟨"B", "B", "y", 2⟩] : List CartItem), ∃ p,
       findProduct ([⟨"A", 5⟩, ⟨"B", 2⟩] : List Product) i.productId = some p ∧
         i.quantity ≤ p.stock)) ∧
    ((createOrder ⟨[⟨"A", 5⟩, ⟨"B", 2⟩], []⟩
        ⟨"INV1", "c", "pr", [⟨"A", "A", "x", 3⟩, ⟨"B", "B", "y", 2⟩]⟩ "O1" 7).1.success
        = true ∧
      (createOrder ⟨[⟨"A", 5⟩, ⟨"B", 2⟩], []⟩
        ⟨"INV1", "c", "pr", [⟨"A", "A", "x", 3⟩, ⟨"B", "B", "y", 2⟩]⟩ "O1" 7).2.orders =
        [] ++ [⟨"O1", "INV1", "c", "pr", [⟨"A", "A", "x", 3⟩, ⟨"B", "B", "y", 2⟩],
          "pending", 7, none, none, none⟩] ∧
      (∀ i ∈ ([⟨"A", "A", "x", 3⟩, ⟨"B", "B", "y", 2⟩] : List CartItem),
        stockOf (createOrder ⟨[⟨"A", 5⟩, ⟨"B", 2⟩], []⟩
          ⟨"INV1", "c", "pr", [⟨"A", "A", "x", 3⟩, ⟨"B", "B", "y", 2⟩]⟩ "O1"
            7).2.products i.productId =
          (stockOf ([⟨"A", 5⟩, ⟨"B", 2⟩] : List Product) i.productId).map
            (fun s => s - i.quantity)) ∧
      (∀ q, (∀ i ∈ ([⟨"A", "A", "x", 3⟩, ⟨"B", "B", "y", 2⟩] : List CartItem),
          i.productId ≠ q) →
        stockOf (createOrder ⟨[⟨"A", 5⟩, ⟨"B", 2⟩], []⟩
          ⟨"INV1", "c", "pr", [⟨"A", "A", "x", 3⟩, ⟨"B", "B", "y", 2⟩]⟩ "O1"
            7).2.products q = stockOf ([⟨"A", 5⟩, ⟨"B", 2⟩] : List Product) q) ∧
      totalStock ([⟨"A", 5⟩, ⟨"B", 2⟩] : List Product) -
        totalStock (createOrder ⟨[⟨"A", 5⟩, ⟨"B", 2⟩], []⟩
          ⟨"INV1", "c", "pr", [⟨"A", "A", "x", 3⟩, ⟨"B", "B", "y", 2⟩]⟩ "O1"
            7).2.products =
        (([⟨"A", "A", "x", 3⟩, ⟨"B", "B", "y", 2⟩] : List CartItem).map
          CartItem.quantity).sum) :=
  ⟨⟨by decide, by decide⟩,
    createOrder_persists_and_decrements ⟨[⟨"A", 5⟩, ⟨"B", 2⟩], []⟩
      ⟨"INV1", "c", "pr", [⟨"A", "A", "x", 3⟩, ⟨"B", "B", "y", 2⟩]⟩ "O1" 7
      (by decide) (by decide) (by decide)⟩

/-! ### Claims C4 and C10: order update -/

/-- Per-product effect of the order-update handler, split into the three
reconciliation cases, shared by the C4 and C10 theorems. -/
lemma updateOrder_stock_cases (db : DB) (oid : String) (body : OrderUpdateBody)
    (now : Nat)
    (hndo : (body.originalItems.map OrigItem.mongoId).Nodup)
    (hndc : (body.cartItems.map resolvedId).Nodup) :
    (∀ o ∈ body.originalItems, (∀ i ∈ body.cartItems, resolvedId i ≠ o.mongoId) →
      stockOf (updateOrder db oid body now).2.products o.mongoId =
        (stockOf db.products o.mongoId).map (fun s => s + o.quantity)) ∧
    (∀ i ∈ body.cartItems, (∀ o ∈ body.originalItems, o.mongoId ≠ resolvedId i) →
      stockOf (updateOrder db oid body now).2.products (resolvedId i) =
        (stockOf db.products (resolvedId i)).map (fun s => s - i.quantity)) ∧
    (∀ o ∈ body.originalItems, ∀ i ∈ body.cartItems, resolvedId i = o.mongoId →
      stockOf (updateOrder db oid body now).2.products o.mongoId =
        (stockOf db.products o.mongoId).map
          (fun s => s + (o.quantity - i.quantity))) := by
  refine ⟨?_, ?_, ?_⟩
  · intro o ho hno
    rw [stockOf_updateOrder,
      restoredQty_of_not_mem_cart body.cartItems body.originalItems o o.mongoId hno
        hndo ho rfl,
      syncAdj_of_not_mem_cart body.originalItems body.cartItems o.mongoId hno]
    cases stockOf db.products o.mongoId with
    | none => rfl
    | some s =>
        simp only [Option.map_some', Option.some.injEq]
        omega
  · intro i hi hno
    rw [stockOf_updateOrder,
      restoredQty_of_mem_cart body.cartItems body.originalItems i (resolvedId i) hi rfl,
      syncAdj_of_mem_cart_no_orig body.originalItems body.cartItems i (resolvedId i)
        hndc hi rfl (origFind_of_not_mem body.originalItems (resolvedId i) hno)]
    cases stockOf db.products (resolvedId i) with
    | none => rfl
    | some s =>
        simp only [Option.map_some', Option.some.injEq]
        omega
  · intro o ho i hi hid
    rw [stockOf_updateOrder,
      restoredQty_of_mem_cart body.cartItems body.originalItems i o.mongoId hi hid,
      syncAdj_of_mem_cart_with_orig body.originalItems body.cartItems i o o.mongoId
        hndc hi hid (origFind_of_mem body.originalItems o o.mongoId hndo ho rfl)]
    cases stockOf db.products o.mongoId with
    | none => rfl
    | some s =>
        simp only [Option.map_some', Option.some.injEq]
        omega

/-- C4: the order-update handler reconciles stock by item identifier, not
position - an item only in `originalItems` has its full original quantity
restored, an item only in the new cart decrements stock by its quantity,
and an item in both decrements stock by the quantity delta (zero delta
changing nothing), provided each list references distinct identifiers. -/
theorem updateOrder_reconciles_stock
    (db : DB) (oid : String) (body : OrderUpdateBody) (now : Nat)
    (hndo : (body.originalItems.map OrigItem.mongoId).Nodup)
    (hndc : (body.cartItems.map resolvedId).Nodup) :
    (∀ o ∈ body.originalItems, (∀ i ∈ body.cartItems, resolvedId i ≠ o.mongoId) →
      stockOf (updateOrder db oid body now).2.products o.mongoId =
        (stockOf db.products o.mongoId).map (fun s => s + o.quantity)) ∧
    (∀ i ∈ body.cartItems, (∀ o ∈ body.originalItems, o.mongoId ≠ resolvedId i) →
      stockOf (updateOrder db oid body now).2.products (resolvedId i) =
        (stockOf db.products (resolvedId i)).map (fun s => s - i.quantity)) ∧
    (∀ o ∈ body.originalItems, ∀ i ∈ body.cartItems, resolvedId i = o.mongoId →
      stockOf (updateOrder db oid body now).2.products o.mongoId =
        (stockOf db.products o.mongoId).map
          (fun s => s + (o.quantity - i.quantity))) :=
  updateOrder_stock_cases db oid body now hndo hndc

/-- Witness for C4: the spec's own example - item `A` goes from quantity 5
to 2 and item `B` is new with quantity 3, so `A` gains 3 units of stock
and `B` loses 3. -/
theorem updateOrder_reconciles_stock_witness :
    ((([⟨"A", 5⟩] : List OrigItem).map OrigItem.mongoId).Nodup ∧
      (([⟨"A", "A", "x", 2⟩, ⟨"B", "B", "y", 3⟩] : List CartItem).map
        resolvedId).Nodup) ∧
    (∀ o ∈ ([⟨"A", 5⟩] : List OrigItem), ∀ i ∈
        ([⟨"A", "A", "x", 2⟩, ⟨"B", "B", "y", 3⟩] : List CartItem),
      resolvedId i = o.mongoId →
      stockOf (updateOrder ⟨[⟨"A", 10⟩, ⟨"B", 10⟩], []⟩ "O1"
        ⟨"c", "p", "pending", [⟨"A", "A", "x", 2⟩, ⟨"B", "B", "y", 3⟩],
          [⟨"A", 5⟩]⟩ 9).2.products o.mongoId =
        (stockOf ([⟨"A", 10⟩, ⟨"B", 10⟩] : List Product) o.mongoId).map
          (fun s => s + (o.quantity - i.quantity))) :=
  ⟨⟨by decide, by decide⟩,
    (updateOrder_reconciles_stock ⟨[⟨"A", 10⟩, ⟨"B", 10⟩], []⟩ "O1"
      ⟨"c", "p", "pending", [⟨"A", "A", "x", 2⟩, ⟨"B", "B", "y", 3⟩], [⟨"A", 5⟩]⟩ 9
      (by decide) (by decide)).2.2⟩

/-- C10: an order update whose id matches no stored order still succeeds,
leaves the orders collection untouched, and applies every reconciliation
stock delta to the products - the handler checks nothing about the order
before mutating stock. -/
theorem updateOrder_ignores_missing_order
    (db : DB) (oid : String) (body : OrderUpdateBody) (now : Nat)
    (hmiss : findOrder db.orders oid = none)
    (hndo : (body.originalItems.map OrigItem.mongoId).Nodup)
    (hndc : (body.cartItems.map resolvedId).Nodup) :
    (updateOrder db oid body now).1.success = true ∧
    (updateOrder db oid body now).2.orders = db.orders ∧
    ((∀ o ∈ body.originalItems, (∀ i ∈ body.cartItems, resolvedId i ≠ o.mongoId) →
      stockOf (updateOrder db oid body now).2.products o.mongoId =
        (stockOf db.products o.mongoId).map (fun s => s + o.quantity)) ∧
    (∀ i ∈ body.cartItems, (∀ o ∈ body.originalItems, o.mongoId ≠ resolvedId i) →
      stockOf (updateOrder db oid body now).2.products (resolvedId i) =
        (stockOf db.products (resolvedId i)).map (fun s => s - i.quantity))) :=
  ⟨rfl, updateFirstOrder_of_none (setOrderFields body now) db.orders oid hmiss,
    (updateOrder_stock_cases db oid body now hndo hndc).1,
    (updateOrder_stock_cases db oid body now hndo hndc).2.1⟩

/-- Witness for C10: a one-product store whose orders collection is
empty. -/
theorem updateOrder_ignores_missing_order_witness :
    ((updateOrder ⟨[⟨"A", 1⟩], []⟩ "X"
        ⟨"c", "p", "pending", [⟨"A", "A", "itemA", 5⟩], []⟩ 0).1.success = true ∧
      (updateOrder ⟨[⟨"A", 1⟩], []⟩ "X"
        ⟨"c", "p", "pending", [⟨"A", "A", "itemA", 5⟩], []⟩ 0).2.orders = []) ∧
    (∀ i ∈ ([⟨"A", "A", "itemA", 5⟩] : List CartItem),
      (∀ o ∈ ([] : List OrigItem), o.mongoId ≠ resolvedId i) →
      stockOf (updateOrder ⟨[⟨"A", 1⟩], []⟩ "X"
        ⟨"c", "p", "pending", [⟨"A", "A", "itemA", 5⟩], []⟩ 0).2.products
          (resolvedId i) =
        (stockOf ([⟨"A", 1⟩] : List Product) (resolvedId i)).map
          (fun s => s - i.quantity)) :=
  have h := updateOrder_ignores_missing_order ⟨[⟨"A", 1⟩], []⟩ "X"
    ⟨"c", "p", "pending", [⟨"A", "A", "itemA", 5⟩], []⟩ 0 rfl (by decide) (by decide)
  ⟨⟨h.1, h.2.1⟩, h.2.2.2⟩

/-! ### Claims C7 and C8: cancel, return, confirm -/

lemma cancelOrder_active_eq (db : DB) (oid : String) (now : Nat) (o : OrderDoc)
    (hfind : findOrder db.orders oid = some o) (hst : o.status ≠ "canceled") :
    cancelOrder db oid now =
      (⟨200, true, "Order canceled and stock restored successfully"⟩,
        ⟨restoreCart db.products o.cartItems,
          updateFirstOrder (cancelStamp now) db.orders oid⟩) := by
  simp [cancelOrder, hfind, hst]

lemma cancelOrder_already_eq (db : DB) (oid : String) (now : Nat) (o : OrderDoc)
    (hfind : findOrder db.orders oid = some o) (hst : o.status = "canceled") :
    cancelOrder db oid now = (⟨400, false, "Order already canceled"⟩, db) := by
  simp [cancelOrder, hfind, hst]

lemma returnOrder_already_eq (db : DB) (oid : String) (now : Nat) (o : OrderDoc)
    (hfind : findOrder db.orders oid = some o) (hst : o.status = "returned") :
    returnOrder db oid now = (⟨400, false, "Order already returned"⟩, db) := by
  simp [returnOrder, hfind, hst]

/-- C7 (amended): re-invoking cancel on an already-canceled order is
rejected with no state change, and symmetrically for return; the statuses
are nevertheless not terminal, since the confirm handler (and the order
update handler) will still overwrite them (see the counterexample). -/
theorem cancel_return_repeat_guards (db : DB) (oid : String) (now : Nat)
    (o : OrderDoc) (hfind : findOrder db.orders oid = some o) :
    (o.status = "canceled" →
      cancelOrder db oid now = (⟨400, false, "Order already canceled"⟩, db)) ∧
    (o.status = "returned" →
      returnOrder db oid now = (⟨400, false, "Order already returned"⟩, db)) :=
  ⟨fun hst => cancelOrder_already_eq db oid now o hfind hst,
   fun hst => returnOrder_already_eq db oid now o hfind hst⟩

/-- Witness for C7's amended theorem on a store holding one canceled
order. -/
theorem cancel_return_repeat_guards_witness :
    (findOrder [⟨"O1", "INV", "c", "p", [], "canceled", 0, none, some 0, none⟩] "O1" =
      some ⟨"O1", "INV", "c", "p", [], "canceled", 0, none, some 0, none⟩) ∧
    (((⟨"O1", "INV", "c", "p", [], "canceled", 0, none, some 0, none⟩ :
        OrderDoc).status = "canceled" →
      cancelOrder ⟨[], [⟨"O1", "INV", "c", "p", [], "canceled", 0, none, some 0, none⟩]⟩
          "O1" 3 =
        (⟨400, false, "Order already canceled"⟩,
          ⟨[], [⟨"O1", "INV", "c", "p", [], "canceled", 0, none, some 0, none⟩]⟩)) ∧
    ((⟨"O1", "INV", "c", "p", [], "canceled", 0, none, some 0, none⟩ :
        OrderDoc).status = "returned" →
      returnOrder ⟨[], [⟨"O1", "INV", "c", "p", [], "canceled", 0, none, some 0, none⟩]⟩
          "O1" 3 =
        (⟨400, false, "Order already returned"⟩,
          ⟨[], [⟨"O1", "INV", "c", "p", [], "canceled", 0, none, some 0, none⟩]⟩))) :=
  ⟨by decide,
    cancel_return_repeat_guards
      ⟨[], [⟨"O1", "INV", "c", "p", [], "canceled", 0, none, some 0, none⟩]⟩
      "O1" 3 ⟨"O1", "INV", "c", "p", [], "canceled", 0, none, some 0, none⟩ (by decide)⟩

/-- C7, counterexample: `canceled` is not terminal. Confirming a canceled
order succeeds and moves its status to `"confirmed"`. -/
theorem confirm_transitions_canceled_order :
    (confirmOrder ⟨[], [⟨"O1", "INV", "c", "p", [], "canceled", 0, none, some 0,
      none⟩]⟩ "O1").1.success = true ∧
    findOrder (confirmOrder ⟨[], [⟨"O1", "INV", "c", "p", [], "canceled", 0, none,
      some 0, none⟩]⟩ "O1").2.orders "O1" =
      some ⟨"O1", "INV", "c", "p", [], "confirmed", 0, none, some 0, none⟩ := by
  decide

/-- C8: canceling an existing, not-yet-canceled order succeeds, adds every
cart item's quantity back onto its product's stock (exactly the item's
quantity when the cart references distinct products), stamps the order
`"canceled"` with `canceledAt = now`, and a second cancel of the same
order fails with the state left exactly as after the first. -/
theorem cancelOrder_restores_stock_once
    (db : DB) (oid : String) (now now2 : Nat) (o : OrderDoc)
    (hfind : findOrder db.orders oid = some o)
    (hst : o.status ≠ "canceled") :
    (cancelOrder db oid now).1.success = true ∧
    (∀ q, stockOf (cancelOrder db oid now).2.products q =
      (stockOf db.products q).map (fun s => s + cartQty o.cartItems q)) ∧
    ((o.cartItems.map CartItem.productId).Nodup →
      ∀ i ∈ o.cartItems,
        stockOf (cancelOrder db oid now).2.products i.productId =
          (stockOf db.products i.productId).map (fun s => s + i.quantity)) ∧
    findOrder (cancelOrder db oid now).2.orders oid = some (cancelStamp now o) ∧
    (cancelOrder (cancelOrder db oid now).2 oid now2).1.success = false ∧
    (cancelOrder (cancelOrder db oid now).2 oid now2).2 =
      (cancelOrder db oid now).2 := by
  rw [cancelOrder_active_eq db oid now o hfind hst]
  have horders : findOrder (updateFirstOrder (cancelStamp now) db.orders oid) oid =
      some (cancelStamp now o) := by
    rw [findOrder_updateFirstOrder (cancelStamp now) db.orders oid (fun x => rfl),
      hfind]
    rfl
  refine ⟨rfl, ?_, ?_, horders, ?_, ?_⟩
  · intro q
    exact stockOf_restoreCart o.cartItems db.products q
  · intro hnd i hi
    rw [stockOf_restoreCart, cartQty_of_nodup o.cartItems i hnd hi]
  · rw [cancelOrder_already_eq _ oid now2 _ horders rfl]
  · rw [cancelOrder_already_eq _ oid now2 _ horders rfl]

/-- Witness for C8: cancel an order of 3 units of product `A` whose stock
has dropped to 2; the stock returns to 5 and a second cancel is refused. -/
theorem cancelOrder_restores_stock_once_witness :
    (findOrder [⟨"O1", "INV", "c", "p", [⟨"A", "A", "x", 3⟩], "pending", 0, none,
        none, none⟩] "O1" =
      some ⟨"O1", "INV", "c", "p", [⟨"A", "A", "x", 3⟩], "pending", 0, none, none,
        none⟩) ∧
    ((cancelOrder ⟨[⟨"A", 2⟩], [⟨"O1", "INV", "c", "p", [⟨"A", "A", "x", 3⟩],
        "pending", 0, none, none, none⟩]⟩ "O1" 4).1.success = true ∧
      (∀ q, stockOf (cancelOrder ⟨[⟨"A", 2⟩], [⟨"O1", "INV", "c", "p",
          [⟨"A", "A", "x", 3⟩], "pending", 0, none, none, none⟩]⟩ "O1"
            4).2.products q =
        (stockOf ([⟨"A", 2⟩] : List Product) q).map (fun s =>
          s + cartQty [⟨"A", "A", "x", 3⟩] q)) ∧
      ((([⟨"A", "A", "x", 3⟩] : List CartItem).map CartItem.productId).Nodup →
        ∀ i ∈ ([⟨"A", "A", "x", 3⟩] : List CartItem),
          stockOf (cancelOrder ⟨[⟨"A", 2⟩], [⟨"O1", "INV", "c", "p",
              [⟨"A", "A", "x", 3⟩], "pending", 0, none, none, none⟩]⟩ "O1"
                4).2.products i.productId =
            (stockOf ([⟨"A", 2⟩] : List Product) i.productId).map
              (fun s => s + i.quantity)) ∧
      findOrder (cancelOrder ⟨[⟨"A", 2⟩], [⟨"O1", "INV", "c", "p",
          [⟨"A", "A", "x", 3⟩], "pending", 0, none, none, none⟩]⟩ "O1"
            4).2.orders "O1" =
        some (cancelStamp 4 ⟨"O1", "INV", "c", "p", [⟨"A", "A", "x", 3⟩],
          "pending", 0, none, none, none⟩) ∧
      (cancelOrder (cancelOrder ⟨[⟨"A", 2⟩], [⟨"O1", "INV", "c", "p",
          [⟨"A", "A", "x", 3⟩], "pending", 0, none, none, none⟩]⟩ "O1" 4).2 "O1"
            9).1.success = false ∧
      (cancelOrder (cancelOrder ⟨[⟨"A", 2⟩], [⟨"O1", "INV", "c", "p",
          [⟨"A", "A", "x", 3⟩], "pending", 0, none, none, none⟩]⟩ "O1" 4).2 "O1"
            9).2 =
        (cancelOrder ⟨[⟨"A", 2⟩], [⟨"O1", "INV", "c", "p", [⟨"A", "A", "x", 3⟩],
          "pending", 0, none, none, none⟩]⟩ "O1" 4).2) :=
  ⟨by decide,
    cancelOrder_restores_stock_once
      ⟨[⟨"A", 2⟩], [⟨"O1", "INV", "c", "p", [⟨"A", "A", "x", 3⟩], "pending", 0,
        none, none, none⟩]⟩ "O1" 4 9
      ⟨"O1", "INV", "c", "p", [⟨"A", "A", "x", 3⟩], "pending", 0, none, none, none⟩
      (by decide) (by decide)⟩

/-! ### Catalog model

The product create/update handlers build full product documents; the
numeric fields are stored as possibly-NaN numbers (`Option ℚ`). -/

/-- A product document as written by `POST /products`. -/
structure CatalogProduct where
  pid : String
  img : JSValue
  name : JSValue
  shortDesc : JSValue
  brand : JSValue
  country : JSValue
  category : JSValue
  stock : Option ℚ
  price : Option ℚ
  discount : Option ℚ
  finalPrice : Option ℚ
  status : JSValue
  description : List String
  createdAt : Nat
  deriving DecidableEq

/-- Body of a `POST /products` request. `JSValue.undef` models an absent
field (triggering the destructuring defaults); `description` is `some l`
for a JSON array of strings and `none` for an absent or non-array value
(both of which the handler turns into `[]`). The handler never reads
`finalPrice`, which is carried here to state that a supplied value is
ignored. -/
structure CreateBody where
  img : JSValue
  name : JSValue
  shortDesc : JSValue
  brand : JSValue
  country : JSValue
  category : JSValue
  stock : JSValue
  price : JSValue
  discount : JSValue
  status : JSValue
  description : Option (List String)
  finalPrice : JSValue
  deriving DecidableEq

/-- Handler for `POST /products`: presence validation, `Number(...)`
coercion of stock/price/discount, server-side
`Math.max(price - price*discount/100, 0)` final price rounded via
`Number(x.toFixed(2))`, description cleaning, and insertion. -/
def addProduct (ps : List CatalogProduct) (body : CreateBody) (newId : String)
    (now : Nat) : ApiResult × List CatalogProduct :=
  if !truthy body.img || !truthy body.name || isNullish body.price then
    (⟨400, false, "Image, Name & Price are required!"⟩, ps)
  else
    let safePrice := toNumber body.price
    let safeDiscount := toNumber (if body.discount = .undef then .num 0 else body.discount)
    let safeStock := toNumber (if body.stock = .undef then .num 0 else body.stock)
    let finalPrice := nanLift2 (fun a b => max (a - a * b / 100) 0) safePrice safeDiscount
    (⟨201, true, "Product inserted successfully"⟩,
      ps ++ [{ pid := newId
               img := body.img
               name := body.name
               shortDesc := if truthy body.shortDesc then body.shortDesc else .str ""
               brand := if truthy body.brand then body.brand else .str ""
               country := if truthy body.country then body.country else .str ""
               category := body.category
               stock := safeStock
               price := safePrice
               discount := safeDiscount
               finalPrice := finalPrice.map round2
               status := if body.status = .undef then .str "regular" else body.status
               description := (body.description.getD []).filter
                 (fun d => d != "" && !(trimChars d.data).isEmpty)
               createdAt := now }])

/-- Body of a `PUT /products/:id` request: the client-supplied `_id` and
`finalPrice` (which the handler deletes before persisting) and the numeric
fields the handler coerces. -/
structure UpdateBody where
  clientId : JSValue
  clientFinalPrice : JSValue
  stock : JSValue
  price : JSValue
  discount : JSValue
  deriving DecidableEq

/-- MongoDB `findOne({_id: pid})` on the catalog products collection. -/
def findCatalog : List CatalogProduct → String → Option CatalogProduct
  | [], _ => none
  | p :: ps, pid => if p.pid == pid then some p else findCatalog ps pid

/-- MongoDB `updateOne({_id: pid}, {$set: ...})` on the catalog products
collection: apply `f` to the first matching product. -/
def updateFirstCatalog (f : CatalogProduct → CatalogProduct) :
    List CatalogProduct → String → List CatalogProduct
  | [], _ => []
  | p :: ps, pid =>
      if p.pid == pid then f p :: ps else p :: updateFirstCatalog f ps pid

/-- Field assignments of the `$set` clause of `PUT /products/:id`: the
coerced numeric fields plus the recomputed `finalPrice` (note: computed as
`price - price*discount/100` with no rounding and no clamping at 0). -/
def setProductFields (st pr dc fp : Option ℚ) (p : CatalogProduct) : CatalogProduct :=
  { p with stock := st, price := pr, discount := dc, finalPrice := fp }

/-- Handler for `PUT /products/:id`: strips `_id`/`finalPrice` from the
body (modelled by never reading `clientId`/`clientFinalPrice`), coerces
stock/price/discount, rejects when stock or price is NaN (discount is not
checked), recomputes `finalPrice = price - price*discount/100`, and
`$set`s the result on the matching product, reporting 404 when
`matchedCount` is zero. -/
def updateProduct (ps : List CatalogProduct) (pid : String) (body : UpdateBody) :
    ApiResult × List CatalogProduct :=
  let st := toNumber body.stock
  let pr := toNumber body.price
  let dc := toNumber body.discount
  if st.isNone || pr.isNone then
    (⟨400, false, "Invalid numeric values"⟩, ps)
  else
    let fp := nanLift2 (fun a b => a - a * b / 100) pr dc
    if (findCatalog ps pid).isSome then
      (⟨200, true, "Product updated successfully"⟩,
        updateFirstCatalog (setProductFields st pr dc fp) ps pid)
    else (⟨404, false, "Product not found"⟩, ps)

/-! ### Lemmas for the catalog handlers -/

lemma round2_nonneg (q : ℚ) (h : 0 ≤ q) : 0 ≤ round2 q := by
  unfold round2
  have h1 : (0 : ℤ) ≤ ⌊100 * q + 1 / 2⌋ := by
    apply Int.le_floor.mpr
    push_cast
    linarith
  have h2 : (0 : ℚ) ≤ ((⌊100 * q + 1 / 2⌋ : ℤ) : ℚ) := by exact_mod_cast h1
  exact div_nonneg h2 (by norm_num)

lemma findCatalog_updateFirstCatalog (f : CatalogProduct → CatalogProduct)
    (ps : List CatalogProduct) (pid : String) (hf : ∀ p, (f p).pid = p.pid) :
    findCatalog (updateFirstCatalog f ps pid) pid = (findCatalog ps pid).map f := by
  induction ps with
  | nil => simp [updateFirstCatalog, findCatalog]
  | cons p ps ih =>
      by_cases h : p.pid = pid
      · simp [updateFirstCatalog, findCatalog, h, hf p]
      · simp [updateFirstCatalog, findCatalog, h, ih]

lemma addProduct_valid_eq (ps : List CatalogProduct) (body : CreateBody)
    (newId : String) (now : Nat)
    (himg : truthy body.img = true) (hname : truthy body.name = true)
    (hnull : isNullish body.price = false) :
    addProduct ps body newId now =
      (⟨201, true, "Product inserted successfully"⟩,
        ps ++ [{ pid := newId
                 img := body.img
                 name := body.name
                 shortDesc := if truthy body.shortDesc then body.shortDesc else .str ""
                 brand := if truthy body.brand then body.brand else .str ""
                 country := if truthy body.country then body.country else .str ""
                 category := body.category
                 stock := toNumber (if body.stock = .undef then .num 0 else body.stock)
                 price := toNumber body.price
                 discount := toNumber
                   (if body.discount = .undef then .num 0 else body.discount)
                 finalPrice := (nanLift2 (fun a b => max (a - a * b / 100) 0)
                   (toNumber body.price)
                   (toNumber (if body.discount = .undef then .num 0
                     else body.discount))).map round2
                 status := if body.status = .undef then .str "regular" else body.status
                 description := (body.description.getD []).filter
                   (fun d => d != "" && !(trimChars d.data).isEmpty)
                 createdAt := now }]) := by
  simp [addProduct, himg, hname, hnull]

/-! ### Claim C5: product creation computes finalPrice server-side -/

/-- C5: a product creation whose `img` and `name` are truthy, whose `price`
is present, and whose price and (defaulted) discount coerce to numbers `p`
and `d`, succeeds and stores
`finalPrice = round2 (max (p - p*d/100) 0)`, a value that is never
negative; the request's own `finalPrice` field is ignored, so the stored
value is the same for every supplied `finalPrice`. -/
theorem addProduct_computes_finalPrice
    (ps : List CatalogProduct) (body : CreateBody) (newId : String) (now : Nat)
    (p d : ℚ)
    (himg : truthy body.img = true) (hname : truthy body.name = true)
    (hnull : isNullish body.price = false)
    (hp : toNumber body.price = some p)
    (hd : toNumber (if body.discount = .undef then .num 0 else body.discount) =
      some d) :
    (addProduct ps body newId now).1.success = true ∧
    (∃ prod, (addProduct ps body newId now).2 = ps ++ [prod] ∧
      prod.finalPrice = some (round2 (max (p - p * d / 100) 0)) ∧
      0 ≤ round2 (max (p - p * d / 100) 0)) ∧
    (∀ fp, addProduct ps { body with finalPrice := fp } newId now =
      addProduct ps body newId now) := by
  refine ⟨?_, ?_, fun fp => rfl⟩
  · rw [addProduct_valid_eq ps body newId now himg hname hnull]
  · rw [addProduct_valid_eq ps body newId now himg hname hnull]
    refine ⟨_, rfl, ?_, round2_nonneg _ (le_max_right _ _)⟩
    simp only [hp, hd, nanLift2, Option.map_some']

/-- Witness for C5: the spec's example, price 100 and discount 10 percent,
stores finalPrice 90. -/
theorem addProduct_computes_finalPrice_witness :
    (truthy (JSValue.str "x") = true ∧ truthy (JSValue.str "Soap") = true ∧
      isNullish (JSValue.num 100) = false) ∧
    ((addProduct [] ⟨.str "x", .str "Soap", .undef, .undef, .undef, .str "cat",
        .undef, .num 100, .num 10, .undef, none, .num 1⟩ "P1" 0).1.success = true ∧
      (∃ prod, (addProduct [] ⟨.str "x", .str "Soap", .undef, .undef, .undef,
          .str "cat", .undef, .num 100, .num 10, .undef, none, .num 1⟩ "P1" 0).2 =
          [] ++ [prod] ∧
        prod.finalPrice = some (round2 (max ((100 : ℚ) - 100 * 10 / 100) 0)) ∧
        0 ≤ round2 (max ((100 : ℚ) - 100 * 10 / 100) 0)) ∧
      (∀ fp, addProduct []
          { (⟨.str "x", .str "Soap", .undef, .undef, .undef, .str "cat", .undef,
            .num 100, .num 10, .undef, none, .num 1⟩ : CreateBody) with
              finalPrice := fp } "P1" 0 =
        addProduct [] ⟨.str "x", .str "Soap", .undef, .undef, .undef, .str "cat",
          .undef, .num 100, .num 10, .undef, none, .num 1⟩ "P1" 0)) :=
  ⟨⟨rfl, rfl, rfl⟩,
    addProduct_computes_finalPrice [] ⟨.str "x", .str "Soap", .undef, .undef,
      .undef, .str "cat", .undef, .num 100, .num 10, .undef, none, .num 1⟩ "P1" 0
      100 10 rfl rfl rfl rfl rfl⟩

/-- Concrete check that the C5 formula evaluates to 90 on the spec's
example, tying `round2` to the expected wire value. -/
theorem addProduct_finalPrice_example :
    round2 (max ((100 : ℚ) - 100 * 10 / 100) 0) = 90 := by
  norm_num [round2]

/-! ### Claims C6 and C9: product update -/

/-- C6, counterexample: the claim says the stored `finalPrice` is rounded
to 2 decimals, but the update handler stores the raw
`price - price*discount/100`. Updating with price 0.1 and discount 1
stores 0.099, while rounding to 2 decimals would give 0.1. -/
theorem updateProduct_does_not_round :
    ((updateProduct [⟨"P1", .str "i", .str "n", .str "", .str "", .str "",
        .str "cat", some 1, some 1, some 0, some 1, .str "regular", [], 0⟩] "P1"
      ⟨.undef, .undef, .num 5, .num (1 / 10), .num 1⟩).2.map
        CatalogProduct.finalPrice = [some (99 / 1000)]) ∧
    round2 (99 / 1000) = 1 / 10 ∧ (99 / 1000 : ℚ) ≠ 1 / 10 := by
  refine ⟨?_, ?_, by norm_num⟩
  · simp [updateProduct, toNumber, nanLift2, findCatalog, updateFirstCatalog,
      setProductFields]
    norm_num
  · norm_num [round2]

/-- C6 (amended): the product-update handler ignores the client-supplied
`_id` and `finalPrice` and recomputes the stored `finalPrice` server-side
from the submitted price and discount - but as the raw
`price - price*discount/100`, without rounding to 2 decimals. -/
theorem updateProduct_recomputes_finalPrice
    (ps : List CatalogProduct) (pid : String) (body : UpdateBody) (st pr dc : ℚ)
    (hst : toNumber body.stock = some st)
    (hpr : toNumber body.price = some pr)
    (hdc : toNumber body.discount = some dc)
    (hex : (findCatalog ps pid).isSome = true) :
    (updateProduct ps pid body).1.success = true ∧
    findCatalog (updateProduct ps pid body).2 pid =
      (findCatalog ps pid).map
        (setProductFields (some st) (some pr) (some dc)
          (some (pr - pr * dc / 100))) ∧
    (∀ cid cfp,
      updateProduct ps pid { body with clientId := cid, clientFinalPrice := cfp } =
        updateProduct ps pid body) := by
  have he : updateProduct ps pid body =
      (⟨200, true, "Product updated successfully"⟩,
        updateFirstCatalog (setProductFields (some st) (some pr) (some dc)
          (some (pr - pr * dc / 100))) ps pid) := by
    simp [updateProduct, hst, hpr, hdc, hex, nanLift2]
  rw [he]
  refine ⟨rfl, ?_, fun cid cfp => ?_⟩
  · exact findCatalog_updateFirstCatalog _ ps pid (fun p => rfl)
  · rw [← he]
    rfl

/-- Witness for C6's amended theorem: price 0.1, discount 1, stored
finalPrice 0.099 for any client-supplied `_id`/`finalPrice`. -/
theorem updateProduct_recomputes_finalPrice_witness :
    (toNumber (JSValue.num 5) = some 5 ∧ toNumber (JSValue.num (1 / 10)) =
      some (1 / 10) ∧ toNumber (JSValue.num 1) = some 1 ∧
      (findCatalog [⟨"P1", .str "i", .str "n", .str "", .str "", .str "",
        .str "cat", some 1, some 1, some 0, some 1, .str "regular", [], 0⟩]
        "P1").isSome = true) ∧
    ((updateProduct [⟨"P1", .str "i", .str "n", .str "", .str "", .str "",
        .str "cat", some 1, some 1, some 0, some 1, .str "regular", [], 0⟩] "P1"
        ⟨.num 7, .num 3, .num 5, .num (1 / 10), .num 1⟩).1.success = true ∧
      findCatalog (updateProduct [⟨"P1", .str "i", .str "n", .str "", .str "",
          .str "", .str "cat", some 1, some 1, some 0, some 1, .str "regular", [],
          0⟩] "P1" ⟨.num 7, .num 3, .num 5, .num (1 / 10), .num 1⟩).2 "P1" =
        (findCatalog [⟨"P1", .str "i", .str "n", .str "", .str "", .str "",
          .str "cat", some 1, some 1, some 0, some 1, .str "regular", [], 0⟩]
          "P1").map
          (setProductFields (some 5) (some (1 / 10)) (some 1)
            (some ((1 / 10) - (1 / 10) * 1 / 100))) ∧
      (∀ cid cfp, updateProduct [⟨"P1", .str "i", .str "n", .str "", .str "",
          .str "", .str "cat", some 1, some 1, some 0, some 1, .str "regular", [],
          0⟩] "P1"
          { (⟨.num 7, .num 3, .num 5, .num (1 / 10), .num 1⟩ : UpdateBody) with
              clientId := cid, clientFinalPrice := cfp } =
        updateProduct [⟨"P1", .str "i", .str "n", .str "", .str "", .str "",
          .str "cat", some 1, some 1, some 0, some 1, .str "regular", [], 0⟩] "P1"
          ⟨.num 7, .num 3, .num 5, .num (1 / 10), .num 1⟩)) :=
  ⟨⟨rfl, rfl, rfl, rfl⟩,
    updateProduct_recomputes_finalPrice
      [⟨"P1", .str "i", .str "n", .str "", .str "", .str "", .str "cat", some 1,
        some 1, some 0, some 1, .str "regular", [], 0⟩] "P1"
      ⟨.num 7, .num 3, .num 5, .num (1 / 10), .num 1⟩ 5 (1 / 10) 1 rfl rfl rfl rfl⟩

/-- C9 (amended): the product-update handler rejects a request whose stock
or price does not coerce to a number, with a 400 response and no change to
the store; the create handler (see the counterexample) and the update
handler's discount field enjoy no such protection. -/
theorem updateProduct_rejects_non_numeric
    (ps : List CatalogProduct) (pid : String) (body : UpdateBody)
    (h : toNumber body.stock = none ∨ toNumber body.price = none) :
    (updateProduct ps pid body).1 = ⟨400, false, "Invalid numeric values"⟩ ∧
    (updateProduct ps pid body).2 = ps := by
  rcases h with h | h <;> simp [updateProduct, h]

/-- Witness for C9's amended theorem: a stock of `"abc"` is rejected by
the update handler. -/
theorem updateProduct_rejects_non_numeric_witness :
    (toNumber (JSValue.str "abc") = none) ∧
    ((updateProduct [] "P1" ⟨.undef, .undef, .str "abc", .num 2, .num 0⟩).1 =
      ⟨400, false, "Invalid numeric values"⟩ ∧
      (updateProduct [] "P1" ⟨.undef, .undef, .str "abc", .num 2, .num 0⟩).2 = []) :=
  ⟨by decide,
    updateProduct_rejects_non_numeric [] "P1"
      ⟨.undef, .undef, .str "abc", .num 2, .num 0⟩ (Or.inl (by decide))⟩

/-- C9, counterexample: the claim says every create or update request
with a non-coercible numeric field is rejected, but (a) the create
handler performs no numeric validation at all - a stock of `"abc"` is
accepted and stored as NaN - and (b) the update handler checks only
stock and price, so a discount of `"abc"` is accepted, stored as NaN,
and propagates NaN into the stored finalPrice. -/
theorem non_numeric_accepted_by_create_and_update_discount :
    ((addProduct [] ⟨.str "x", .str "Soap", .undef, .undef, .undef, .str "cat",
        .str "abc", .num 100, .num 0, .undef, none, .undef⟩ "P1" 0).1.success =
        true ∧
      (addProduct [] ⟨.str "x", .str "Soap", .undef, .undef, .undef, .str "cat",
        .str "abc", .num 100, .num 0, .undef, none, .undef⟩ "P1" 0).2.map
          CatalogProduct.stock = [none]) ∧
    ((updateProduct [⟨"P1", .str "i", .str "n", .str "", .str "", .str "",
        .str "cat", some 1, some 1, some 0, some 1, .str "regular", [], 0⟩] "P1"
        ⟨.undef, .undef, .num 5, .num 2, .str "abc"⟩).1.success = true ∧
      (updateProduct [⟨"P1", .str "i", .str "n", .str "", .str "", .str "",
        .str "cat", some 1, some 1, some 0, some 1, .str "regular", [], 0⟩] "P1"
        ⟨.undef, .undef, .num 5, .num 2, .str "abc"⟩).2.map
          CatalogProduct.discount = [none] ∧
      (updateProduct [⟨"P1", .str "i", .str "n", .str "", .str "", .str "",
        .str "cat", some 1, some 1, some 0, some 1, .str "regular", [], 0⟩] "P1"
        ⟨.undef, .undef, .num 5, .num 2, .str "abc"⟩).2.map
          CatalogProduct.finalPrice = [none]) := by
  exact ⟨⟨rfl, by decide⟩, by decide⟩

/-- C1, counterexample: the claim says every successful mutation leaves
every stock a non-negative integer, but three mutation paths violate it.
An order update introducing item `A` with quantity 5 against stock 1
succeeds and leaves stock -4; an order creation whose cart repeats
product `A` (two items of quantity 3 against stock 5) passes validation,
since each item is checked against the still-undecremented stock, and
succeeds leaving stock -1; and a product creation supplying stock -5 is
accepted and stores -5. -/
theorem successful_mutations_drive_stock_negative :
    ((updateOrder ⟨[⟨"A", 1⟩], []⟩ "X"
        ⟨"c", "p", "pending", [⟨"A", "A", "itemA", 5⟩], []⟩ 0).1.success = true ∧
      stockOf (updateOrder ⟨[⟨"A", 1⟩], []⟩ "X"
        ⟨"c", "p", "pending", [⟨"A", "A", "itemA", 5⟩], []⟩ 0).2.products "A" =
        some (-4)) ∧
    ((createOrder ⟨[⟨"A", 5⟩], []⟩
        ⟨"INV1", "c", "pr", [⟨"A", "A", "x", 3⟩, ⟨"A", "A", "y", 3⟩]⟩ "O1"
          0).1.success = true ∧
      stockOf (createOrder ⟨[⟨"A", 5⟩], []⟩
        ⟨"INV1", "c", "pr", [⟨"A", "A", "x", 3⟩, ⟨"A", "A", "y", 3⟩]⟩ "O1"
          0).2.products "A" = some (-1)) ∧
    ((addProduct [] ⟨.str "x", .str "Soap", .undef, .undef, .undef, .str "cat",
        .num (-5), .num 100, .num 0, .undef, none, .undef⟩ "P1" 0).1.success =
        true ∧
      (addProduct [] ⟨.str "x", .str "Soap", .undef, .undef, .undef, .str "cat",
        .num (-5), .num 100, .num 0, .undef, none, .undef⟩ "P1" 0).2.map
          CatalogProduct.stock = [some (-5)]) := by
  exact ⟨by decide, by decide, rfl, by decide⟩

end Coconut
